import Mathlib

/-!
Verification of the cryptocurrency-advanced service of this repository.

The development shallowly embeds the transaction-execution core:

* `src/examples/cryptocurrency-advanced/backend/src/multisig_transfer.rs`
  (`State`, `MultisignatureTransfer` and its `approve` / `reject` /
  `is_complete` / `is_done` / `is_rejected` methods);
* `src/examples/cryptocurrency-advanced/backend/src/transactions.rs`
  (the `Error` enum, the transaction payload structs, `MAX_APPROVERS`,
  and the six `Transaction::execute` bodies);
* `src/examples/cryptocurrency-advanced/backend/src/schema.rs` together with
  `src/examples/cryptocurrency-advanced/backend/src/wallet.rs`
  (the table-driven schema variant, embedded in namespace `TableVariant`).

Machine integers (`u64`) are embedded as `Nat`: every subtraction in the
source is guarded by an explicit balance check, and no claim exercises
`u64` overflow.  Public keys and transaction hashes are opaque identifiers,
embedded as `Nat`.  The Merkle root of a wallet's history list is embedded
as the history list itself (an injective digest; the store owns digest
computation, per the spec).

A few helpers called by `transactions.rs` are not part of the sources under
`src/` (only their callers are): `Wallet::increase_balance`,
`Wallet::decrease_balance`, `Schema::update_wallet`,
`Schema::create_transfer_multisig`, `Schema::multisig_transfer`,
`Schema::update_transfer_multisig` (keyed form), and the `INITIAL_BALANCE`
constant.  Those are modelled from the specification and marked as such in
their doc comments.
-/

namespace Exonum

abbrev PublicKey := Nat
abbrev Hash := Nat

/-- Modelled from the spec: `INITIAL_BALANCE` is defined in the crate root,
which is not under `src/`; the spec's operations table and Scenario A (and
the repository's API tests) fix it at 100. -/
def INITIAL_BALANCE : Nat := 100

/-- Some arbitrary constraint specifying how large approvers list can be
(`transactions.rs`). -/
def MAX_APPROVERS : Nat := 5

/-- State of multisignature transfer (`multisig_transfer.rs`, enum `State`). -/
inductive State where
  /-- Transfer is in process. -/
  | InProcess
  /-- Transfer was rejected by one of approvers. -/
  | Rejected
  /-- Transfer was approved by all the approvers. -/
  | Done
deriving DecidableEq, Repr

/-- MultisignatureTransfer information stored in the database
(`multisig_transfer.rs`). -/
structure MultisignatureTransfer where
  approved_by : List PublicKey
  state : State
deriving DecidableEq, Repr

/-- Equality of two lists read as `HashSet`s, as produced by
`HashSet::from_iter` in `MultisignatureTransfer::is_complete`. -/
def eqAsSets (xs ys : List PublicKey) : Bool :=
  xs.all (fun a => ys.contains a) && ys.all (fun a => xs.contains a)

/-- Create new MultisignatureTransfer (`Default`/`new`). -/
def MultisignatureTransfer.new : MultisignatureTransfer :=
  { approved_by := [], state := State.InProcess }

/-- Shows if the transfer is approved by all required approvers
(`is_complete`): the `approved_by` list and the `approvers` list are
compared as `HashSet`s. -/
def MultisignatureTransfer.is_complete (t : MultisignatureTransfer)
    (approvers : List PublicKey) : Bool :=
  eqAsSets t.approved_by approvers

/-- Shows if the transfer is done (`is_done`). -/
def MultisignatureTransfer.is_done (t : MultisignatureTransfer) : Bool :=
  t.state == State.Done

/-- Shows if the transfer is rejected (`is_rejected`). -/
def MultisignatureTransfer.is_rejected (t : MultisignatureTransfer) : Bool :=
  t.state == State.Rejected

/-- Approve the transfer (`MultisignatureTransfer::approve`).  The source
returns `Result<Self, Self>` whose `Err` payload is discarded by the one
caller; `none` stands for `Err`. -/
def MultisignatureTransfer.approve (t : MultisignatureTransfer)
    (approver : PublicKey) (approvers : List PublicKey) :
    Option MultisignatureTransfer :=
  if approvers.contains approver then
    let approved : MultisignatureTransfer :=
      { t with approved_by := t.approved_by ++ [approver] }
    let st := if approved.is_complete approvers then State.Done
              else State.InProcess
    some { approved with state := st }
  else
    none

/-- Reject the transfer (`MultisignatureTransfer::reject`).  Fails (`none`)
only if the rejecter is not on the approvers list. -/
def MultisignatureTransfer.reject (t : MultisignatureTransfer)
    (rejecter : PublicKey) (approvers : List PublicKey) :
    Option MultisignatureTransfer :=
  if approvers.contains rejecter then
    some { t with state := State.Rejected }
  else
    none

/-- Error codes emitted by wallet transactions during execution
(`transactions.rs`, enum `Error`). -/
inductive Error where
  | WalletAlreadyExists
  | SenderNotFound
  | ReceiverNotFound
  | InsufficientCurrencyAmount
  | SenderSameAsReceiver
  | EmptyApproversList
  | ApproversListIsTooLarge
  | TransactionDoesNotExist
  | ReferredTransactionFailed
  | ReferredTransactionIsNotTransferMultisig
  | ApproverIsNotOnApproversList
  | TransferIsRejected
deriving DecidableEq, Repr

/-- Transfer transaction payload (`transactions.rs`). -/
structure Transfer where
  to_ : PublicKey
  amount : Nat
  seed : Nat
deriving DecidableEq, Repr

/-- TransferMultisig transaction payload (`transactions.rs`). -/
structure TransferMultisig where
  to_ : PublicKey
  approvers : List PublicKey
  amount : Nat
  seed : Nat
deriving DecidableEq, Repr

/-- ApproveTransferMultisig transaction payload (`transactions.rs`). -/
structure ApproveTransferMultisig where
  tx_hash : Hash
deriving DecidableEq, Repr

/-- RejectTransferMultisig transaction payload (`transactions.rs`). -/
structure RejectTransferMultisig where
  tx_hash : Hash
deriving DecidableEq, Repr

/-- Issue transaction payload (`transactions.rs`). -/
structure Issue where
  amount : Nat
  seed : Nat
deriving DecidableEq, Repr

/-- CreateWallet transaction payload (`transactions.rs`). -/
structure CreateWallet where
  name : String
deriving DecidableEq, Repr

/-- Transaction group (`transactions.rs`, enum `WalletTransactions`). -/
inductive WalletTransactions where
  | transfer (t : Transfer)
  | issue (t : Issue)
  | createWallet (t : CreateWallet)
  | transferMultisig (t : TransferMultisig)
  | approveTransferMultisig (t : ApproveTransferMultisig)
  | rejectTransferMultisig (t : RejectTransferMultisig)
deriving DecidableEq, Repr

/-- Wallet information stored in the database, for the executor variant of
the service.  Fields follow the spec's Account data model (`owner`,
`display_name`, `balance`, `history_length`, `history_digest`); the digest
is embedded as the history list itself. -/
structure Wallet where
  pub_key : PublicKey
  name : String
  balance : Nat
  history_len : Nat
  history_hash : List Hash
deriving DecidableEq, Repr

/-- Modelled from the spec: `Wallet::increase_balance` is called by the
executors in `transactions.rs` but is not among the sources under `src/`;
the spec's operations table gives its effect as crediting the balance by
`amount`. -/
def Wallet.increase_balance (w : Wallet) (amount : Nat) : Wallet :=
  { w with balance := w.balance + amount }

/-- Modelled from the spec: `Wallet::decrease_balance` is called by the
executors in `transactions.rs` but is not among the sources under `src/`;
the spec's operations table gives its effect as debiting the balance by
`amount` (callers check `balance < amount` first). -/
def Wallet.decrease_balance (w : Wallet) (amount : Nat) : Wallet :=
  { w with balance := w.balance - amount }

/-- Entry of the framework's transaction log: the verified author, the
payload, and the recorded execution outcome (`blockchain::Schema`'s
`transactions` and `transaction_results` tables, merged by key). -/
structure TxRecord where
  author : PublicKey
  payload : WalletTransactions
  success : Bool
deriving DecidableEq, Repr

/-- Association-list lookup, the embedding of keyed index `get`. -/
def alookup {α : Type} (l : List (Nat × α)) (k : Nat) : Option α :=
  (l.find? (fun p => p.1 == k)).map Prod.snd

/-- Association-list update, the embedding of keyed index `put`. -/
def ainsert {α : Type} (l : List (Nat × α)) (k : Nat) (v : α) :
    List (Nat × α) :=
  (k, v) :: l.filter (fun p => p.1 != k)

/-- The ledger store visible to the service: the wallets table, the
per-wallet history lists, the multisignature-transfer table keyed by the
initiating transaction's hash, and the framework transaction log. -/
structure LedgerState where
  wallets : List (PublicKey × Wallet)
  histories : List (PublicKey × List Hash)
  transfers : List (Hash × MultisignatureTransfer)
  txRecords : List (Hash × TxRecord)
deriving DecidableEq, Repr

/-- The empty ledger (genesis). -/
def LedgerState.empty : LedgerState :=
  { wallets := [], histories := [], transfers := [], txRecords := [] }

/-- Returns wallet for the given public key (`Schema::wallet`). -/
def LedgerState.wallet (s : LedgerState) (pub_key : PublicKey) :
    Option Wallet :=
  alookup s.wallets pub_key

/-- Returns history of the wallet with the given public key
(`Schema::wallet_history`; empty if never written). -/
def LedgerState.wallet_history (s : LedgerState) (pub_key : PublicKey) :
    List Hash :=
  (alookup s.histories pub_key).getD []

/-- Create new wallet and append first record to its history
(`Schema::create_wallet` in `schema.rs`): push the transaction hash onto
the history, then store a wallet with `INITIAL_BALANCE`, the history
length and the history digest. -/
def LedgerState.create_wallet (s : LedgerState) (key : PublicKey)
    (name : String) (transaction : Hash) : LedgerState :=
  let history := s.wallet_history key ++ [transaction]
  let w : Wallet :=
    { pub_key := key, name := name, balance := INITIAL_BALANCE,
      history_len := history.length, history_hash := history }
  { s with histories := ainsert s.histories key history,
           wallets := ainsert s.wallets key w }

/-- Modelled from the spec: `Schema::update_wallet` is called by the
executors in `transactions.rs` but is not among the sources under `src/`.
Per the spec's Account lifecycle, storing an updated wallet appends the
triggering operation's identifier to the wallet's history, increments
`history_length` by exactly one and replaces the digest accordingly. -/
def LedgerState.update_wallet (s : LedgerState) (w : Wallet)
    (transaction : Hash) : LedgerState :=
  let history := s.wallet_history w.pub_key ++ [transaction]
  { s with
    histories := ainsert s.histories w.pub_key history,
    wallets := ainsert s.wallets w.pub_key
      { w with history_len := w.history_len + 1, history_hash := history } }

/-- Modelled from the spec: `Schema::create_transfer_multisig` is called by
`TransferMultisig::execute` but is not among the sources under `src/`.  Per
the spec it creates a fresh `PendingEscrow{state = Pending}` keyed by the
initiating operation's identifier. -/
def LedgerState.create_transfer_multisig (s : LedgerState) (h : Hash) :
    LedgerState :=
  { s with transfers := ainsert s.transfers h MultisignatureTransfer.new }

/-- Modelled from the spec: `Schema::multisig_transfer` is called by the
approve/reject executors but is not among the sources under `src/`; it is
the keyed lookup of the pending-escrow table. -/
def LedgerState.multisig_transfer (s : LedgerState) (h : Hash) :
    Option MultisignatureTransfer :=
  alookup s.transfers h

/-- Modelled from the spec: the keyed `Schema::update_transfer_multisig`
called by the approve/reject executors is not among the sources under
`src/`; it stores the updated escrow record under its key. -/
def LedgerState.update_transfer_multisig (s : LedgerState) (h : Hash)
    (t : MultisignatureTransfer) : LedgerState :=
  { s with transfers := ainsert s.transfers h t }

/-- `Transaction::execute` for `Transfer` (`transactions.rs`).  The
`TransactionContext` is passed as the current fork `s`, the verified
`author` and the transaction hash. -/
def Transfer.execute (self : Transfer) (s : LedgerState)
    (author : PublicKey) (hash : Hash) : Except Error LedgerState :=
  if author == self.to_ then
    .error Error.SenderSameAsReceiver
  else
    match s.wallet author with
    | none => .error Error.SenderNotFound
    | some sender =>
      match s.wallet self.to_ with
      | none => .error Error.ReceiverNotFound
      | some receiver =>
        if sender.balance < self.amount then
          .error Error.InsufficientCurrencyAmount
        else
          let s := s.update_wallet (sender.decrease_balance self.amount) hash
          let s := s.update_wallet (receiver.increase_balance self.amount) hash
          .ok s

/-- `Transaction::execute` for `Issue` (`transactions.rs`). -/
def Issue.execute (self : Issue) (s : LedgerState) (author : PublicKey)
    (hash : Hash) : Except Error LedgerState :=
  match s.wallet author with
  | some wallet => .ok (s.update_wallet (wallet.increase_balance self.amount) hash)
  | none => .error Error.ReceiverNotFound

/-- `Transaction::execute` for `CreateWallet` (`transactions.rs`). -/
def CreateWallet.execute (self : CreateWallet) (s : LedgerState)
    (author : PublicKey) (hash : Hash) : Except Error LedgerState :=
  match s.wallet author with
  | none => .ok (s.create_wallet author self.name hash)
  | some _ => .error Error.WalletAlreadyExists

/-- `Transaction::execute` for `TransferMultisig` (`transactions.rs`).  The
collection of the approvers list into a `HashSet` is embedded as `dedup`:
the set's cardinality is the number of distinct entries. -/
def TransferMultisig.execute (self : TransferMultisig) (s : LedgerState)
    (author : PublicKey) (hash : Hash) : Except Error LedgerState :=
  if author == self.to_ then
    .error Error.SenderSameAsReceiver
  else
    match s.wallet author with
    | none => .error Error.SenderNotFound
    | some sender =>
      match s.wallet self.to_ with
      | none => .error Error.ReceiverNotFound
      | some _receiver =>
        if sender.balance < self.amount then
          .error Error.InsufficientCurrencyAmount
        else
          let approversSet := self.approvers.dedup
          if approversSet.isEmpty then
            .error Error.EmptyApproversList
          else if MAX_APPROVERS < approversSet.length then
            .error Error.ApproversListIsTooLarge
          else
            let sender := sender.decrease_balance self.amount
            let s := s.update_wallet sender hash
            let s := s.create_transfer_multisig hash
            .ok s

/-- `Transaction::execute` for `ApproveTransferMultisig`
(`transactions.rs`).  The framework's `transaction_results` and
`transactions` tables are embedded as the merged `txRecords` log, so the
referred transaction's payload and recorded outcome come from one lookup;
`tx_from_raw` always succeeds on a logged payload, and the kind check is
the `match` on the payload. -/
def ApproveTransferMultisig.execute (self : ApproveTransferMultisig)
    (s : LedgerState) (author : PublicKey) (hash : Hash) :
    Except Error LedgerState :=
  match alookup s.txRecords self.tx_hash with
  | none => .error Error.TransactionDoesNotExist
  | some rec =>
    if rec.success = false then
      .error Error.ReferredTransactionFailed
    else
      match rec.payload with
      | WalletTransactions.transferMultisig original_transfer =>
        match s.wallet original_transfer.to_ with
        | none => .error Error.ReceiverNotFound
        | some wallet =>
          match s.multisig_transfer self.tx_hash with
          | none => .error Error.TransactionDoesNotExist
          | some transfer_in_question =>
            if transfer_in_question.is_rejected then
              .error Error.TransferIsRejected
            else
              match transfer_in_question.approve author original_transfer.approvers with
              | none => .error Error.ApproverIsNotOnApproversList
              | some approved_transfer =>
                let s :=
                  if approved_transfer.is_done then
                    s.update_wallet (wallet.increase_balance original_transfer.amount) hash
                  else s
                .ok (s.update_transfer_multisig self.tx_hash approved_transfer)
      | _ => .error Error.ReferredTransactionIsNotTransferMultisig

/-- `Transaction::execute` for `RejectTransferMultisig`
(`transactions.rs`).  The original author is read from the signed referred
transaction, i.e. from the log record. -/
def RejectTransferMultisig.execute (self : RejectTransferMultisig)
    (s : LedgerState) (author : PublicKey) (hash : Hash) :
    Except Error LedgerState :=
  match alookup s.txRecords self.tx_hash with
  | none => .error Error.TransactionDoesNotExist
  | some rec =>
    if rec.success = false then
      .error Error.ReferredTransactionFailed
    else
      match rec.payload with
      | WalletTransactions.transferMultisig original_transfer =>
        match s.wallet rec.author with
        | none => .error Error.SenderNotFound
        | some sender =>
          match s.multisig_transfer self.tx_hash with
          | none => .error Error.TransactionDoesNotExist
          | some transfer_in_question =>
            match transfer_in_question.reject author original_transfer.approvers with
            | none => .error Error.ApproverIsNotOnApproversList
            | some rejected_transfer =>
              let s := s.update_wallet (sender.increase_balance original_transfer.amount) hash
              .ok (s.update_transfer_multisig self.tx_hash rejected_transfer)
      | _ => .error Error.ReferredTransactionIsNotTransferMultisig

/-- Dispatch of `Transaction::execute` over the transaction group. -/
def WalletTransactions.execute (tx : WalletTransactions) (s : LedgerState)
    (author : PublicKey) (hash : Hash) : Except Error LedgerState :=
  match tx with
  | .transfer t => t.execute s author hash
  | .issue t => t.execute s author hash
  | .createWallet t => t.execute s author hash
  | .transferMultisig t => t.execute s author hash
  | .approveTransferMultisig t => t.execute s author hash
  | .rejectTransferMultisig t => t.execute s author hash

/-- One sequencer step.  Operation identifiers are content-derived and a
resubmitted identifier is rejected as a duplicate (spec, concurrency
model), so a step whose hash is already logged does nothing.  Otherwise
the executor runs on a fork: on success the fork's write-set commits, on
failure it is discarded; either way the typed outcome is recorded in the
transaction log for later reference. -/
def applyTx (s : LedgerState) (author : PublicKey) (hash : Hash)
    (tx : WalletTransactions) : LedgerState :=
  if (alookup s.txRecords hash).isSome then s
  else
    match tx.execute s author hash with
    | .ok s' =>
      { s' with txRecords :=
          ainsert s'.txRecords hash { author := author, payload := tx, success := true } }
    | .error _ =>
      { s with txRecords :=
          ainsert s.txRecords hash { author := author, payload := tx, success := false } }

/-- States reachable by delivering any sequence of authenticated operations
starting from the empty ledger. -/
inductive Reachable : LedgerState → Prop where
  | init : Reachable LedgerState.empty
  | step {s : LedgerState} (author : PublicKey) (hash : Hash)
      (tx : WalletTransactions) :
      Reachable s → Reachable (applyTx s author hash tx)

/-- Sum of all account balances. -/
def totalBalances (s : LedgerState) : Nat :=
  (s.wallets.map (fun p => p.2.balance)).sum

/-- The frozen amount of the escrow keyed by `h`, read from the referred
transaction's payload (the escrow record itself stores no amount). -/
def escrowAmount (s : LedgerState) (h : Hash) : Nat :=
  match alookup s.txRecords h with
  | some rec =>
    match rec.payload with
    | WalletTransactions.transferMultisig t => t.amount
    | _ => 0
  | none => 0

/-- Sum of `amount` over all escrows whose state is still `Pending`
(`InProcess`). -/
def pendingEscrowTotal (s : LedgerState) : Nat :=
  ((s.transfers.filter (fun p => p.2.state == State.InProcess)).map
    (fun p => escrowAmount s p.1)).sum

/-- Failure kinds the spec's operations table (section 4.1) allows for each
operation kind.  This definition follows the SPEC's table, to be compared
with the behaviour of the embedded executors. -/
def allowedErrors (tx : WalletTransactions) : List Error :=
  match tx with
  | .createWallet _ => [Error.WalletAlreadyExists]
  | .issue _ => [Error.ReceiverNotFound]
  | .transfer _ =>
    [Error.SenderSameAsReceiver, Error.SenderNotFound,
     Error.ReceiverNotFound, Error.InsufficientCurrencyAmount]
  | .transferMultisig _ =>
    [Error.SenderSameAsReceiver, Error.SenderNotFound,
     Error.ReceiverNotFound, Error.InsufficientCurrencyAmount,
     Error.EmptyApproversList, Error.ApproversListIsTooLarge]
  | .approveTransferMultisig _ =>
    [Error.TransactionDoesNotExist, Error.ReferredTransactionFailed,
     Error.ReferredTransactionIsNotTransferMultisig,
     Error.ApproverIsNotOnApproversList, Error.TransferIsRejected]
  | .rejectTransferMultisig _ =>
    [Error.TransactionDoesNotExist, Error.ReferredTransactionFailed,
     Error.ReferredTransactionIsNotTransferMultisig,
     Error.ApproverIsNotOnApproversList]

/-- Ledger invariants maintained by every reachable state.  `wallet_key`:
the wallets table is keyed by the owner key stored in the wallet.
`escrow_approvers`: every escrow record points back to a successfully
executed `TransferMultisig` in the log, and everyone in `approved_by` is on
that transfer's approvers list.  `ref_ok`: every successful
`TransferMultisig` in the log has a live receiver wallet, a live initiator
wallet and an escrow record under its hash. -/
structure Inv (s : LedgerState) : Prop where
  wallet_key : ∀ pk w, s.wallet pk = some w → w.pub_key = pk
  escrow_approvers : ∀ h t, s.multisig_transfer h = some t →
    ∃ rec tm, alookup s.txRecords h = some rec ∧ rec.success = true ∧
      rec.payload = WalletTransactions.transferMultisig tm ∧
      ∀ x ∈ t.approved_by, x ∈ tm.approvers
  ref_ok : ∀ h rec tm, alookup s.txRecords h = some rec →
    rec.success = true → rec.payload = WalletTransactions.transferMultisig tm →
    (s.wallet tm.to_).isSome ∧ (s.wallet rec.author).isSome ∧
      (s.multisig_transfer h).isSome

/-! Concrete executions used to settle the claims.  Identities: 1 = alice,
2 = bob, 3 = carol, 4 = dave.  Operation identifiers 11..15. -/

/-- Alice's wallet is created. -/
def sA1 : LedgerState :=
  applyTx LedgerState.empty 1 11 (.createWallet { name := "alice" })

/-- Alice's and Bob's wallets are created, each with `INITIAL_BALANCE`. -/
def sAB : LedgerState :=
  applyTx sA1 2 12 (.createWallet { name := "bob" })

/-- Alice escrows 10 to Bob with Carol as the sole approver. -/
def sEscrow : LedgerState :=
  applyTx sAB 1 13
    (.transferMultisig { to_ := 2, approvers := [3], amount := 10, seed := 0 })

/-- Carol approves: the escrow completes and Bob is credited. -/
def sDone : LedgerState :=
  applyTx sEscrow 3 14 (.approveTransferMultisig { tx_hash := 13 })

/-- Carol rejects the already completed escrow. -/
def sRejectAfterDone : LedgerState :=
  applyTx sDone 3 15 (.rejectTransferMultisig { tx_hash := 13 })

/-- Carol approves the already completed escrow a second time. -/
def sDoubleApprove : LedgerState :=
  applyTx sDone 3 15 (.approveTransferMultisig { tx_hash := 13 })

/-- Alice escrows 10 to Bob with approvers Carol and Dave. -/
def sEscrow2 : LedgerState :=
  applyTx sAB 1 13
    (.transferMultisig { to_ := 2, approvers := [3, 4], amount := 10, seed := 0 })

/-- Carol approves (escrow still pending). -/
def sCarol : LedgerState :=
  applyTx sEscrow2 3 14 (.approveTransferMultisig { tx_hash := 13 })

/-- Carol approves a second time while the escrow is still pending. -/
def sCarolTwice : LedgerState :=
  applyTx sCarol 3 15 (.approveTransferMultisig { tx_hash := 13 })

/-- Dave approves after Carol: the escrow completes. -/
def sDave : LedgerState :=
  applyTx sCarol 4 15 (.approveTransferMultisig { tx_hash := 13 })

/-- Scenario A: a plain transfer of 10 from Alice to Bob. -/
def sTransferA : LedgerState :=
  applyTx sAB 1 13 (.transfer { to_ := 2, amount := 10, seed := 0 })

end Exonum

namespace Exonum.TableVariant

/-- Pending multisignature transfer as stored inside a wallet
(`wallet.rs`, `PendingTransferMultisig`). -/
structure PendingTransferMultisig where
  tx_hash : Hash
  approved_by : List PublicKey
deriving DecidableEq, Repr

/-- Create new PendingTransferMultisig (`PendingTransferMultisig::new`). -/
def PendingTransferMultisig.new (tx_hash : Hash) : PendingTransferMultisig :=
  { tx_hash := tx_hash, approved_by := [] }

/-- Approve the transfer (`PendingTransferMultisig::approve`): pushes the
approver onto `approved_by` unconditionally. -/
def PendingTransferMultisig.approve (t : PendingTransferMultisig)
    (approver : PublicKey) : PendingTransferMultisig :=
  { t with approved_by := t.approved_by ++ [approver] }

/-- Shows if the transfer is approved by all required approvers
(`PendingTransferMultisig::is_complete`): `HashSet` comparison. -/
def PendingTransferMultisig.is_complete (t : PendingTransferMultisig)
    (approvers : List PublicKey) : Bool :=
  eqAsSets t.approved_by approvers

/-- Wallet information stored in the database (`wallet.rs`, table-driven
variant, with the embedded pending-transfer list). -/
structure Wallet where
  pub_key : PublicKey
  name : String
  balance : Nat
  history_len : Nat
  history_hash : List Hash
  pending_multisig_transfers : List PendingTransferMultisig
deriving DecidableEq, Repr

/-- Create new Wallet (`Wallet::new`): the pending-transfer list starts
empty. -/
def Wallet.new (pub_key : PublicKey) (name : String) (balance : Nat)
    (history_len : Nat) (history_hash : List Hash) : Wallet :=
  { pub_key := pub_key, name := name, balance := balance,
    history_len := history_len, history_hash := history_hash,
    pending_multisig_transfers := [] }

/-- Consumes and returns the wallet with updated balance
(`Wallet::set_balance`): also bumps `history_len` by one and replaces the
digest. -/
def Wallet.set_balance (w : Wallet) (balance : Nat)
    (history_hash : List Hash) : Wallet :=
  { w with balance := balance, history_hash := history_hash,
           history_len := w.history_len + 1 }

/-- Consumes and returns the wallet with updated pending multisignature
transfers (`Wallet::put_multisig_transfer`): pushes the transfer and bumps
`history_len` by one. -/
def Wallet.put_multisig_transfer (w : Wallet)
    (transfer_multisig : PendingTransferMultisig)
    (history_hash : List Hash) : Wallet :=
  { w with
    pending_multisig_transfers :=
      w.pending_multisig_transfers ++ [transfer_multisig],
    history_hash := history_hash,
    history_len := w.history_len + 1 }

/-- Consumes and returns the wallet without pending multisignature transfer
(`Wallet::remove_multisig_transfer`): retains the others and bumps
`history_len` by one. -/
def Wallet.remove_multisig_transfer (w : Wallet)
    (transfer_multisig_hash : Hash) (history_hash : List Hash) : Wallet :=
  { w with
    pending_multisig_transfers :=
      w.pending_multisig_transfers.filter
        (fun t => t.tx_hash != transfer_multisig_hash),
    history_hash := history_hash,
    history_len := w.history_len + 1 }

/-- Consumes and returns the wallet with completed multisignature transfer
(`Wallet::complete_multisig_transfer` = remove then `set_balance`). -/
def Wallet.complete_multisig_transfer (w : Wallet)
    (transfer_multisig : PendingTransferMultisig) (balance : Nat)
    (history_hash : List Hash) : Wallet :=
  (w.remove_multisig_transfer transfer_multisig.tx_hash history_hash).set_balance
    balance history_hash

/-- Consumes and returns the wallet with updated multisignature transfer
(`Wallet::update_multisig_transfer` = remove then `put_multisig_transfer`). -/
def Wallet.update_multisig_transfer (w : Wallet)
    (transfer_multisig : PendingTransferMultisig)
    (history_hash : List Hash) : Wallet :=
  (w.remove_multisig_transfer transfer_multisig.tx_hash history_hash).put_multisig_transfer
    transfer_multisig history_hash

/-- Store view of the table-driven schema (`schema.rs`): the wallets table
and the per-wallet history lists. -/
structure SchemaState where
  wallets : List (PublicKey × Wallet)
  histories : List (PublicKey × List Hash)
deriving DecidableEq, Repr

/-- Returns wallet for the given public key (`Schema::wallet`). -/
def SchemaState.wallet (s : SchemaState) (pub_key : PublicKey) :
    Option Wallet :=
  alookup s.wallets pub_key

/-- Returns history of the wallet with the given public key. -/
def SchemaState.wallet_history (s : SchemaState) (pub_key : PublicKey) :
    List Hash :=
  (alookup s.histories pub_key).getD []

/-- Create new wallet and append first record to its history
(`Schema::create_wallet`). -/
def SchemaState.create_wallet (s : SchemaState) (key : PublicKey)
    (name : String) (transaction : Hash) : SchemaState :=
  let history := s.wallet_history key ++ [transaction]
  let w := Wallet.new key name INITIAL_BALANCE history.length history
  { wallets := ainsert s.wallets key w,
    histories := ainsert s.histories key history }

/-- Increase balance of the wallet and append new record to its history
(`Schema::increase_wallet_balance`). -/
def SchemaState.increase_wallet_balance (s : SchemaState) (wallet : Wallet)
    (amount : Nat) (transaction : Hash) : SchemaState :=
  let history := s.wallet_history wallet.pub_key ++ [transaction]
  let w := wallet.set_balance (wallet.balance + amount) history
  { wallets := ainsert s.wallets wallet.pub_key w,
    histories := ainsert s.histories wallet.pub_key history }

/-- Decrease balance of the wallet and append new record to its history
(`Schema::decrease_wallet_balance`). -/
def SchemaState.decrease_wallet_balance (s : SchemaState) (wallet : Wallet)
    (amount : Nat) (transaction : Hash) : SchemaState :=
  let history := s.wallet_history wallet.pub_key ++ [transaction]
  let w := wallet.set_balance (wallet.balance - amount) history
  { wallets := ainsert s.wallets wallet.pub_key w,
    histories := ainsert s.histories wallet.pub_key history }

/-- Put new pending MultisignatureTransfer into wallet
(`Schema::put_transfer_multisig`): pushes the transfer's hash onto the
history, then stores `wallet.put_multisig_transfer`. -/
def SchemaState.put_transfer_multisig (s : SchemaState) (wallet : Wallet)
    (transfer_multisig : PendingTransferMultisig) : SchemaState :=
  let history := s.wallet_history wallet.pub_key ++ [transfer_multisig.tx_hash]
  let w := wallet.put_multisig_transfer transfer_multisig history
  { wallets := ainsert s.wallets wallet.pub_key w,
    histories := ainsert s.histories wallet.pub_key history }

/-- Complete PendingTransferMultisig (`Schema::complete_transfer_multisig`):
pushes the triggering transaction onto the history exactly once, then
stores `wallet.complete_multisig_transfer` with the credited balance. -/
def SchemaState.complete_transfer_multisig (s : SchemaState)
    (wallet : Wallet) (amount : Nat)
    (transfer_multisig : PendingTransferMultisig)
    (transaction : Hash) : SchemaState :=
  let history := s.wallet_history wallet.pub_key ++ [transaction]
  let w := wallet.complete_multisig_transfer transfer_multisig
    (wallet.balance + amount) history
  { wallets := ainsert s.wallets wallet.pub_key w,
    histories := ainsert s.histories wallet.pub_key history }

/-- Update PendingTransferMultisig (`Schema::update_transfer_multisig`):
pushes the triggering transaction onto the history exactly once, then
stores `wallet.update_multisig_transfer`. -/
def SchemaState.update_transfer_multisig (s : SchemaState) (wallet : Wallet)
    (transfer_multisig : PendingTransferMultisig)
    (transaction : Hash) : SchemaState :=
  let history := s.wallet_history wallet.pub_key ++ [transaction]
  let w := wallet.update_multisig_transfer transfer_multisig history
  { wallets := ainsert s.wallets wallet.pub_key w,
    histories := ainsert s.histories wallet.pub_key history }

/-- Cancel PendingTransferMultisig (`Schema::cancel_transfer_multisig`). -/
def SchemaState.cancel_transfer_multisig (s : SchemaState) (wallet : Wallet)
    (transfer_multisig : PendingTransferMultisig)
    (transaction : Hash) : SchemaState :=
  let history := s.wallet_history wallet.pub_key ++ [transaction]
  let w := wallet.remove_multisig_transfer transfer_multisig.tx_hash history
  { wallets := ainsert s.wallets wallet.pub_key w,
    histories := ainsert s.histories wallet.pub_key history }

/-- The concrete run used for the history-length claim: Alice's wallet is
created (operation 11), a pending transfer keyed by operation 13 is put
into it, and then completed by operation 14. -/
def s7a : SchemaState :=
  SchemaState.create_wallet { wallets := [], histories := [] } 1 "alice" 11

/-- Alice's wallet after the pending transfer 13 is put into it. -/
def s7b : SchemaState :=
  s7a.put_transfer_multisig ((s7a.wallet 1).getD (Wallet.new 0 "" 0 0 [])) (PendingTransferMultisig.new 13)

/-- Alice's wallet after the pending transfer 13 is completed by
operation 14 crediting 10. -/
def s7c : SchemaState :=
  s7b.complete_transfer_multisig ((s7b.wallet 1).getD (Wallet.new 0 "" 0 0 [])) 10
    (PendingTransferMultisig.new 13) 14

end Exonum.TableVariant

namespace Exonum

/-! Lemmas about association-list lookup and update. -/

theorem find_filter_ne {α : Type} (l : List (Nat × α)) (k k' : Nat)
    (h : k' ≠ k) :
    List.find? (fun p => p.1 == k') (l.filter (fun p => p.1 != k)) =
      List.find? (fun p => p.1 == k') l := by
  induction l with
  | nil => rfl
  | cons hd tl ih =>
    by_cases hk : hd.1 = k
    · have h1 : (hd.1 != k) = false := by simp [hk]
      have h2 : (hd.1 == k') = false := by
        rw [hk]
        exact beq_eq_false_iff_ne.mpr (Ne.symm h)
      rw [List.filter_cons, h1]
      simp only [Bool.false_eq_true, if_false]
      simp only [List.find?_cons, h2, ih]
    · have h1 : (hd.1 != k) = true := by simp [hk]
      rw [List.filter_cons, h1]
      simp only [if_true, if_pos trivial]
      simp only [List.find?_cons, ih]

theorem alookup_ainsert {α : Type} (l : List (Nat × α)) (k k' : Nat) (v : α) :
    alookup (ainsert l k v) k' = if k' = k then some v else alookup l k' := by
  by_cases h : k' = k
  · subst h
    simp [alookup, ainsert, List.find?_cons]
  · rw [if_neg h]
    have hbeq : (k == k') = false := beq_eq_false_iff_ne.mpr (Ne.symm h)
    simp only [alookup, ainsert, List.find?_cons, hbeq]
    rw [find_filter_ne _ _ _ h]

theorem alookup_ainsert_self {α : Type} (l : List (Nat × α)) (k : Nat)
    (v : α) : alookup (ainsert l k v) k = some v := by
  rw [alookup_ainsert]
  simp

theorem alookup_ainsert_ne {α : Type} (l : List (Nat × α)) {k k' : Nat}
    (v : α) (h : k' ≠ k) : alookup (ainsert l k v) k' = alookup l k' := by
  rw [alookup_ainsert]
  simp [h]

theorem alookup_ainsert_isSome {α : Type} (l : List (Nat × α)) (k k' : Nat)
    (v : α) (h : (alookup l k').isSome) :
    (alookup (ainsert l k v) k').isSome := by
  rw [alookup_ainsert]
  by_cases hk : k' = k <;> simp [hk, h]

theorem alookup_ainsert_eq_some {α : Type} {l : List (Nat × α)}
    {k k' : Nat} {v w : α} (h : alookup (ainsert l k v) k' = some w) :
    (k' = k ∧ w = v) ∨ (k' ≠ k ∧ alookup l k' = some w) := by
  rw [alookup_ainsert] at h
  by_cases hk : k' = k
  · left
    rw [if_pos hk] at h
    exact ⟨hk, (Option.some_inj.mp h).symm⟩
  · right
    rw [if_neg hk] at h
    exact ⟨hk, h⟩

/-! Lemmas about the schema mutators. -/

theorem wallet_update_wallet (s : LedgerState) (w : Wallet) (h : Hash)
    (pk : PublicKey) :
    (s.update_wallet w h).wallet pk =
      if pk = w.pub_key then
        some { w with history_len := w.history_len + 1,
                      history_hash := s.wallet_history w.pub_key ++ [h] }
      else s.wallet pk := by
  simp only [LedgerState.update_wallet, LedgerState.wallet]
  rw [alookup_ainsert]

theorem wallet_history_update_wallet (s : LedgerState) (w : Wallet)
    (h : Hash) (pk : PublicKey) :
    (s.update_wallet w h).wallet_history pk =
      if pk = w.pub_key then s.wallet_history w.pub_key ++ [h]
      else s.wallet_history pk := by
  simp only [LedgerState.update_wallet, LedgerState.wallet_history]
  rw [alookup_ainsert]
  by_cases hk : pk = w.pub_key <;> simp [hk]

theorem wallet_create_wallet (s : LedgerState) (key : PublicKey)
    (name : String) (h : Hash) (pk : PublicKey) :
    (s.create_wallet key name h).wallet pk =
      if pk = key then
        some { pub_key := key, name := name, balance := INITIAL_BALANCE,
               history_len := (s.wallet_history key ++ [h]).length,
               history_hash := s.wallet_history key ++ [h] }
      else s.wallet pk := by
  simp only [LedgerState.create_wallet, LedgerState.wallet]
  rw [alookup_ainsert]

theorem update_wallet_transfers (s : LedgerState) (w : Wallet) (h : Hash) :
    (s.update_wallet w h).transfers = s.transfers := rfl

theorem update_wallet_txRecords (s : LedgerState) (w : Wallet) (h : Hash) :
    (s.update_wallet w h).txRecords = s.txRecords := rfl

theorem create_wallet_transfers (s : LedgerState) (k : PublicKey)
    (n : String) (h : Hash) : (s.create_wallet k n h).transfers = s.transfers := rfl

theorem create_wallet_txRecords (s : LedgerState) (k : PublicKey)
    (n : String) (h : Hash) : (s.create_wallet k n h).txRecords = s.txRecords := rfl

theorem multisig_update_wallet (s : LedgerState) (w : Wallet) (h h' : Hash) :
    (s.update_wallet w h).multisig_transfer h' = s.multisig_transfer h' := rfl

theorem multisig_create_wallet (s : LedgerState) (k : PublicKey) (n : String)
    (h h' : Hash) : (s.create_wallet k n h).multisig_transfer h' =
      s.multisig_transfer h' := rfl

theorem multisig_create_transfer_multisig (s : LedgerState) (h h' : Hash) :
    (s.create_transfer_multisig h).multisig_transfer h' =
      if h' = h then some MultisignatureTransfer.new
      else s.multisig_transfer h' := by
  simp only [LedgerState.create_transfer_multisig, LedgerState.multisig_transfer]
  rw [alookup_ainsert]

theorem multisig_update_transfer_multisig (s : LedgerState) (h h' : Hash)
    (t : MultisignatureTransfer) :
    (s.update_transfer_multisig h t).multisig_transfer h' =
      if h' = h then some t else s.multisig_transfer h' := by
  simp only [LedgerState.update_transfer_multisig, LedgerState.multisig_transfer]
  rw [alookup_ainsert]

theorem wallet_create_transfer_multisig (s : LedgerState) (h : Hash)
    (pk : PublicKey) :
    (s.create_transfer_multisig h).wallet pk = s.wallet pk := rfl

theorem wallet_update_transfer_multisig (s : LedgerState) (h : Hash)
    (t : MultisignatureTransfer) (pk : PublicKey) :
    (s.update_transfer_multisig h t).wallet pk = s.wallet pk := rfl

theorem create_transfer_multisig_txRecords (s : LedgerState) (h : Hash) :
    (s.create_transfer_multisig h).txRecords = s.txRecords := rfl

theorem update_transfer_multisig_txRecords (s : LedgerState) (h : Hash)
    (t : MultisignatureTransfer) :
    (s.update_transfer_multisig h t).txRecords = s.txRecords := rfl

/-- C1: the claim asserts conservation of value over every successfully
applied sequence.  The code violates it: after CreateWallet(alice),
CreateWallet(bob), TransferMultisig(alice to bob, approvers = [carol],
amount 10), Approve(carol) and Reject(carol) — five operations, all
recorded as successful — the sum of balances plus pending escrow amounts
is 210, while the claimed value is INITIAL_BALANCE times two plus zero
issued, i.e. 200: rejecting an already completed escrow refunds the
initiator although the beneficiary has been paid. -/
theorem conservation_broken_by_reject_after_done :
    (alookup sRejectAfterDone.txRecords 11).map TxRecord.success = some true ∧
    (alookup sRejectAfterDone.txRecords 12).map TxRecord.success = some true ∧
    (alookup sRejectAfterDone.txRecords 13).map TxRecord.success = some true ∧
    (alookup sRejectAfterDone.txRecords 14).map TxRecord.success = some true ∧
    (alookup sRejectAfterDone.txRecords 15).map TxRecord.success = some true ∧
    totalBalances sRejectAfterDone + pendingEscrowTotal sRejectAfterDone = 210 ∧
    INITIAL_BALANCE * 2 + 0 = 200 := by
  decide

/-- C2: the claim asserts the beneficiary is never credited more than once
for the same escrow.  The code violates it: after the escrow of 10 to Bob
completes (Bob holds 110), a second Approve by the same approver is
recorded as successful and credits Bob again, to 120, because
`ApproveTransferMultisig::execute` only guards against `Rejected`, not
`Done`, and a duplicate approval keeps the set equality that marks the
transfer complete. -/
theorem beneficiary_double_credited_on_reapprove :
    (sDone.wallet 2).map Wallet.balance = some 110 ∧
    (sDone.multisig_transfer 13).map MultisignatureTransfer.state =
      some State.Done ∧
    (alookup sDoubleApprove.txRecords 15).map TxRecord.success = some true ∧
    (sDoubleApprove.wallet 2).map Wallet.balance = some 120 := by
  decide

/-- C3: the claim asserts `Done` and `Rejected` are terminal.  The code
violates it: the escrow keyed by operation 13 is `Done` after Carol's
approval, yet Carol's subsequent Reject is recorded as successful and
moves its state to `Rejected` — `MultisignatureTransfer::reject` and
`RejectTransferMultisig::execute` check only that the rejecter is an
approver, never the current state. -/
theorem done_escrow_flipped_to_rejected :
    (sDone.multisig_transfer 13).map MultisignatureTransfer.state =
      some State.Done ∧
    (alookup sRejectAfterDone.txRecords 15).map TxRecord.success = some true ∧
    (sRejectAfterDone.multisig_transfer 13).map MultisignatureTransfer.state =
      some State.Rejected := by
  decide

/-- C7: the claim asserts every successful operation touching an account
increments `history_length` by exactly one while appending exactly one
history entry.  Account creation does satisfy `history_length = 1`, but
the table-driven schema violates the increment: completing a pending
multisignature transfer (`Schema::complete_transfer_multisig`, built on
`Wallet::complete_multisig_transfer`) appends exactly one history entry
yet increments `history_len` twice — here from 2 to 4 while the history
grows from 2 to 3 entries.  (`Wallet::update_multisig_transfer` has the
same double increment.) -/
theorem complete_transfer_multisig_double_increments_history_len :
    (TableVariant.s7a.wallet 1).map TableVariant.Wallet.history_len = some 1 ∧
    (TableVariant.s7b.wallet 1).map TableVariant.Wallet.history_len = some 2 ∧
    (TableVariant.s7b.wallet_history 1).length = 2 ∧
    (TableVariant.s7c.wallet 1).map TableVariant.Wallet.history_len = some 4 ∧
    (TableVariant.s7c.wallet_history 1).length = 3 := by
  decide

/-- C4: every operation that fails validation leaves the ledger —
wallets (balance, name, history length, history digest), per-wallet
histories, and escrow records — exactly as it was: all validation checks
in every `execute` body precede the first write, and the framework
discards the failing operation's fork, recording only the typed outcome. -/
theorem failed_operation_leaves_state_unchanged
    (s : LedgerState) (author : PublicKey) (hash : Hash)
    (tx : WalletTransactions) (e : Error)
    (herr : tx.execute s author hash = Except.error e) :
    (applyTx s author hash tx).wallets = s.wallets ∧
    (applyTx s author hash tx).histories = s.histories ∧
    (applyTx s author hash tx).transfers = s.transfers := by
  unfold applyTx
  by_cases hdup : (alookup s.txRecords hash).isSome
  · simp [hdup]
  · simp [hdup, herr]

/-- Witness for C4 at a concrete input: a transfer from a wallet that does
not exist fails with SenderNotFound and mutates nothing. -/
theorem failed_operation_leaves_state_unchanged_witness :
    (applyTx LedgerState.empty 1 11
      (WalletTransactions.transfer { to_ := 2, amount := 5, seed := 0 })).wallets =
        LedgerState.empty.wallets ∧
    (applyTx LedgerState.empty 1 11
      (WalletTransactions.transfer { to_ := 2, amount := 5, seed := 0 })).histories =
        LedgerState.empty.histories ∧
    (applyTx LedgerState.empty 1 11
      (WalletTransactions.transfer { to_ := 2, amount := 5, seed := 0 })).transfers =
        LedgerState.empty.transfers :=
  failed_operation_leaves_state_unchanged LedgerState.empty 1 11
    (WalletTransactions.transfer { to_ := 2, amount := 5, seed := 0 })
    Error.SenderNotFound (by rfl)

/-- C5: when both wallets exist, the author differs from the receiver and
the author's balance covers the amount, `Transfer::execute` debits the
author and credits the receiver, appending one history entry to each;
otherwise it fails with exactly the error matching the violated
precondition, in the order the source checks them.  Concretely (Scenario
A), after CreateWallet(alice), CreateWallet(bob), Transfer(alice to bob,
10) alice holds 90 and bob 110 with history length 2 each. -/
theorem transfer_correct (s : LedgerState) (author : PublicKey) (hash : Hash)
    (t : Transfer) :
    ((∀ sa sb, author ≠ t.to_ →
        s.wallet author = some sa → sa.pub_key = author →
        s.wallet t.to_ = some sb → sb.pub_key = t.to_ →
        ¬ sa.balance < t.amount →
        ∃ s', t.execute s author hash = Except.ok s' ∧
          s'.wallet author = some { sa with
            balance := sa.balance - t.amount
            history_len := sa.history_len + 1
            history_hash := s.wallet_history author ++ [hash] } ∧
          s'.wallet t.to_ = some { sb with
            balance := sb.balance + t.amount
            history_len := sb.history_len + 1
            history_hash := s.wallet_history t.to_ ++ [hash] }) ∧
      (author = t.to_ →
        t.execute s author hash = Except.error Error.SenderSameAsReceiver) ∧
      (author ≠ t.to_ → s.wallet author = none →
        t.execute s author hash = Except.error Error.SenderNotFound) ∧
      (∀ sa, author ≠ t.to_ → s.wallet author = some sa →
        s.wallet t.to_ = none →
        t.execute s author hash = Except.error Error.ReceiverNotFound) ∧
      (∀ sa sb, author ≠ t.to_ → s.wallet author = some sa →
        s.wallet t.to_ = some sb → sa.balance < t.amount →
        t.execute s author hash = Except.error Error.InsufficientCurrencyAmount)) ∧
    ((sTransferA.wallet 1).map Wallet.balance = some 90 ∧
      (sTransferA.wallet 2).map Wallet.balance = some 110 ∧
      (sTransferA.wallet 1).map Wallet.history_len = some 2 ∧
      (sTransferA.wallet 2).map Wallet.history_len = some 2) := by
  refine ⟨⟨?_, ?_, ?_, ?_, ?_⟩, by decide⟩
  · intro sa sb hne hsa hkeya hsb hkeyb hbal
    have hbeq : (author == t.to_) = false := beq_eq_false_iff_ne.mpr hne
    have hexec : t.execute s author hash = Except.ok
        ((s.update_wallet (sa.decrease_balance t.amount) hash).update_wallet
          (sb.increase_balance t.amount) hash) := by
      simp [Transfer.execute, hbeq, hsa, hsb, hbal]
    refine ⟨_, hexec, ?_, ?_⟩
    · rw [wallet_update_wallet]
      rw [if_neg (by simp [Wallet.increase_balance, hkeyb]; exact hne)]
      rw [wallet_update_wallet]
      rw [if_pos (by simp [Wallet.decrease_balance, hkeya])]
      simp [Wallet.decrease_balance, hkeya]
    · rw [wallet_update_wallet]
      rw [if_pos (by simp [Wallet.increase_balance, hkeyb])]
      rw [wallet_history_update_wallet]
      rw [if_neg (by simp [Wallet.increase_balance, Wallet.decrease_balance,
        hkeya, hkeyb]; exact Ne.symm hne)]
      simp [Wallet.increase_balance, hkeyb]
  · intro heq
    have hbeq : (author == t.to_) = true := beq_iff_eq.mpr heq
    simp [Transfer.execute, hbeq]
  · intro hne hnone
    have hbeq : (author == t.to_) = false := beq_eq_false_iff_ne.mpr hne
    simp [Transfer.execute, hbeq, hnone]
  · intro sa hne hsa hnone
    have hbeq : (author == t.to_) = false := beq_eq_false_iff_ne.mpr hne
    simp [Transfer.execute, hbeq, hsa, hnone]
  · intro sa sb hne hsa hsb hlt
    have hbeq : (author == t.to_) = false := beq_eq_false_iff_ne.mpr hne
    simp [Transfer.execute, hbeq, hsa, hsb, hlt]

/-- Witness for C5 at a concrete input: the success case applied to the
two freshly created wallets. -/
theorem transfer_correct_witness :
    ∃ s', (Transfer.mk 2 10 0).execute sAB 1 21 = Except.ok s' ∧
      s'.wallet 1 = some { pub_key := 1, name := "alice", balance := 90
                           history_len := 2, history_hash := [11, 21] } ∧
      s'.wallet 2 = some { pub_key := 2, name := "bob", balance := 110
                           history_len := 2, history_hash := [12, 21] } := by
  obtain ⟨s', h1, h2, h3⟩ :=
    (transfer_correct sAB 1 21 (Transfer.mk 2 10 0)).1.1
      { pub_key := 1, name := "alice", balance := 100, history_len := 1
        history_hash := [11] }
      { pub_key := 2, name := "bob", balance := 100, history_len := 1
        history_hash := [12] }
      (by decide) (by decide) rfl (by decide) rfl (by decide)
  refine ⟨s', h1, ?_, ?_⟩
  · rw [h2]; decide
  · rw [h3]; decide

/-- C6: an approval by an eligible approver on a non-rejected escrow
succeeds, the resulting state is `Done` exactly when the new
`approved_by`, read as a set, equals the approvers set, and the
beneficiary is credited by `amount` exactly when that completion happens
(and not before).  Concretely (Scenario C), with approvers Carol and Dave,
after Carol's approval Bob still holds 100 and the escrow is still
pending; after Dave's approval Bob holds 110 and the escrow is `Done`. -/
theorem approve_done_iff_set_equality (s : LedgerState)
    (approver : PublicKey) (hash eh : Hash) (rec : TxRecord)
    (tm : TransferMultisig) (w : Wallet) (t : MultisignatureTransfer)
    (hrec : alookup s.txRecords eh = some rec) (hsucc : rec.success = true)
    (hpay : rec.payload = WalletTransactions.transferMultisig tm)
    (hw : s.wallet tm.to_ = some w) (hwkey : w.pub_key = tm.to_)
    (ht : s.multisig_transfer eh = some t) (hnr : t.is_rejected = false)
    (helig : approver ∈ tm.approvers) :
    (∃ s', (ApproveTransferMultisig.mk eh).execute s approver hash =
        Except.ok s' ∧
      (s'.multisig_transfer eh).map MultisignatureTransfer.state =
        some (if eqAsSets (t.approved_by ++ [approver]) tm.approvers
              then State.Done else State.InProcess) ∧
      (s'.wallet tm.to_).map Wallet.balance =
        some (if eqAsSets (t.approved_by ++ [approver]) tm.approvers
              then w.balance + tm.amount else w.balance)) ∧
    ((sCarol.wallet 2).map Wallet.balance = some 100 ∧
      (sCarol.multisig_transfer 13).map MultisignatureTransfer.state =
        some State.InProcess ∧
      (sDave.wallet 2).map Wallet.balance = some 110 ∧
      (sDave.multisig_transfer 13).map MultisignatureTransfer.state =
        some State.Done) := by
  refine ⟨?_, by decide⟩
  have hcont : tm.approvers.contains approver = true := by
    simpa using helig
  have happrove : t.approve approver tm.approvers =
      some { approved_by := t.approved_by ++ [approver]
             state := if eqAsSets (t.approved_by ++ [approver]) tm.approvers
                      then State.Done else State.InProcess } := by
    simp [MultisignatureTransfer.approve, MultisignatureTransfer.is_complete,
      hcont, helig]
  by_cases hc : eqAsSets (t.approved_by ++ [approver]) tm.approvers
  · have hexec : (ApproveTransferMultisig.mk eh).execute s approver hash =
        Except.ok ((s.update_wallet (w.increase_balance tm.amount)
          hash).update_transfer_multisig eh
            { approved_by := t.approved_by ++ [approver]
              state := State.Done }) := by
      simp [ApproveTransferMultisig.execute, hrec, hsucc, hpay, hw, ht, hnr,
        happrove, hc, MultisignatureTransfer.is_done]
    refine ⟨_, hexec, ?_, ?_⟩
    · rw [multisig_update_transfer_multisig, if_pos rfl]
      simp [hc]
    · rw [wallet_update_transfer_multisig, wallet_update_wallet,
        if_pos (by simp [Wallet.increase_balance, hwkey])]
      simp [Wallet.increase_balance, hc]
  · have hexec : (ApproveTransferMultisig.mk eh).execute s approver hash =
        Except.ok (s.update_transfer_multisig eh
          { approved_by := t.approved_by ++ [approver]
            state := State.InProcess }) := by
      simp [ApproveTransferMultisig.execute, hrec, hsucc, hpay, hw, ht, hnr,
        happrove, hc, MultisignatureTransfer.is_done]
    refine ⟨_, hexec, ?_, ?_⟩
    · rw [multisig_update_transfer_multisig, if_pos rfl]
      simp [hc]
    · rw [wallet_update_transfer_multisig, hw]
      simp [hc]

/-- Witness for C6 at a concrete input: Carol's first approval of the
two-approver escrow leaves it pending with Bob uncredited. -/
theorem approve_done_iff_set_equality_witness :
    ∃ s', (ApproveTransferMultisig.mk 13).execute sEscrow2 3 14 =
        Except.ok s' ∧
      (s'.multisig_transfer 13).map MultisignatureTransfer.state =
        some State.InProcess ∧
      (s'.wallet 2).map Wallet.balance = some 100 := by
  obtain ⟨⟨s', h1, h2, h3⟩, _⟩ :=
    approve_done_iff_set_equality sEscrow2 3 14 13
      { author := 1
        payload := WalletTransactions.transferMultisig
          { to_ := 2, approvers := [3, 4], amount := 10, seed := 0 }
        success := true }
      { to_ := 2, approvers := [3, 4], amount := 10, seed := 0 }
      { pub_key := 2, name := "bob", balance := 100, history_len := 1
        history_hash := [12] }
      MultisignatureTransfer.new
      (by decide) rfl rfl (by decide) rfl (by decide) rfl (by decide)
  refine ⟨s', h1, ?_, ?_⟩
  · rw [h2]; decide
  · rw [h3]; decide

/-- C10: `TransferMultisig::execute` collects the approvers list into a
set before validating it, so the size checks see the number of distinct
identities: a list with more than MAX_APPROVERS entries but at most
MAX_APPROVERS distinct identities passes, the escrow is created, and an
identity can approve the created escrow exactly when it is one of the
distinct approvers. -/
theorem transfer_multisig_dedups_approvers (s : LedgerState)
    (author : PublicKey) (hash : Hash) (t : TransferMultisig) (sa : Wallet)
    (hne : author ≠ t.to_) (hsa : s.wallet author = some sa)
    (hrecv : (s.wallet t.to_).isSome) (hbal : ¬ sa.balance < t.amount)
    (hlong : MAX_APPROVERS < t.approvers.length)
    (hdistinct : t.approvers.dedup.length ≤ MAX_APPROVERS) :
    ∃ s', t.execute s author hash = Except.ok s' ∧
      s'.multisig_transfer hash = some MultisignatureTransfer.new ∧
      ∀ x, (MultisignatureTransfer.new.approve x t.approvers).isSome ↔
        x ∈ t.approvers.dedup := by
  obtain ⟨sb, hsb⟩ := Option.isSome_iff_exists.mp hrecv
  have hbeq : (author == t.to_) = false := beq_eq_false_iff_ne.mpr hne
  have hnil : t.approvers ≠ [] := by
    intro hn
    rw [hn] at hlong
    simp [MAX_APPROVERS] at hlong
  have hnonempty : t.approvers.dedup.isEmpty = false := by
    have hdn : t.approvers.dedup ≠ [] :=
      fun hd => hnil ((List.dedup_eq_nil t.approvers).mp hd)
    simp [List.isEmpty_iff, hdn]
  have hsize : ¬ MAX_APPROVERS < t.approvers.dedup.length :=
    not_lt.mpr hdistinct
  have hexec : t.execute s author hash = Except.ok
      ((s.update_wallet (sa.decrease_balance t.amount)
        hash).create_transfer_multisig hash) := by
    simp [TransferMultisig.execute, hbeq, hsa, hsb, hbal, hnonempty, hsize]
  refine ⟨_, hexec, ?_, ?_⟩
  · rw [multisig_create_transfer_multisig, if_pos rfl]
  · intro x
    by_cases hx : x ∈ t.approvers
    · have hc : t.approvers.contains x = true := by simpa using hx
      simp [MultisignatureTransfer.approve, hc, List.mem_dedup, hx]
    · have hc : t.approvers.contains x = false := by simpa using hx
      simp [MultisignatureTransfer.approve, hc, List.mem_dedup, hx]

/-- Witness for C10 at a concrete input: six approver entries, five
distinct identities; the escrow is created and each distinct identity can
approve it. -/
theorem transfer_multisig_dedups_approvers_witness :
    ∃ s', (TransferMultisig.mk 2 [3, 3, 4, 5, 6, 7] 10 0).execute sAB 1 13 =
        Except.ok s' ∧
      s'.multisig_transfer 13 = some MultisignatureTransfer.new ∧
      ∀ x, (MultisignatureTransfer.new.approve x [3, 3, 4, 5, 6, 7]).isSome ↔
        x ∈ ([3, 3, 4, 5, 6, 7] : List PublicKey).dedup :=
  transfer_multisig_dedups_approvers sAB 1 13
    (TransferMultisig.mk 2 [3, 3, 4, 5, 6, 7] 10 0)
    { pub_key := 1, name := "alice", balance := 100, history_len := 1
      history_hash := [11] }
    (by decide) (by decide) (by decide) (by decide) (by decide) (by decide)

/-! Transport lemmas used by the reachability invariant. -/

theorem wallet_key_update_wallet {s : LedgerState}
    (hw : ∀ pk w', s.wallet pk = some w' → w'.pub_key = pk)
    (w : Wallet) (h : Hash) :
    ∀ pk w', (s.update_wallet w h).wallet pk = some w' → w'.pub_key = pk := by
  intro pk w' hl
  rw [wallet_update_wallet] at hl
  by_cases hk : pk = w.pub_key
  · rw [if_pos hk] at hl
    have hv := Option.some_inj.mp hl
    rw [← hv]
    exact hk.symm
  · rw [if_neg hk] at hl
    exact hw pk w' hl

theorem wallet_key_create_wallet {s : LedgerState}
    (hw : ∀ pk w', s.wallet pk = some w' → w'.pub_key = pk)
    (k : PublicKey) (n : String) (h : Hash) :
    ∀ pk w', (s.create_wallet k n h).wallet pk = some w' → w'.pub_key = pk := by
  intro pk w' hl
  rw [wallet_create_wallet] at hl
  by_cases hk : pk = k
  · rw [if_pos hk] at hl
    have hv := Option.some_inj.mp hl
    rw [← hv]
    exact hk.symm
  · rw [if_neg hk] at hl
    exact hw pk w' hl

theorem wallet_isSome_update_wallet (s : LedgerState) (w : Wallet) (h : Hash)
    (pk : PublicKey) (hs : (s.wallet pk).isSome) :
    ((s.update_wallet w h).wallet pk).isSome := by
  rw [wallet_update_wallet]
  by_cases hk : pk = w.pub_key <;> simp [hk, hs]

theorem wallet_isSome_create_wallet (s : LedgerState) (k : PublicKey)
    (n : String) (h : Hash) (pk : PublicKey) (hs : (s.wallet pk).isSome) :
    ((s.create_wallet k n h).wallet pk).isSome := by
  rw [wallet_create_wallet]
  by_cases hk : pk = k <;> simp [hk, hs]

/-- A failed operation only adds its (failed) record to the log, keeping
every invariant. -/
theorem inv_insert_fail (s : LedgerState) (hinv : Inv s) (hash : Hash)
    (hfresh : alookup s.txRecords hash = none) (a : PublicKey)
    (tx : WalletTransactions) :
    Inv { s with
      txRecords := ainsert s.txRecords hash
          { author := a, payload := tx, success := false } } := by
  constructor
  · exact fun pk w h => hinv.wallet_key pk w h
  · intro h t ht
    obtain ⟨rec, tm, hrec, hsucc, hpay, hsub⟩ := hinv.escrow_approvers h t ht
    have hne : h ≠ hash := by
      intro he
      rw [he, hfresh] at hrec
      cases hrec
    refine ⟨rec, tm, ?_, hsucc, hpay, hsub⟩
    show alookup (ainsert s.txRecords hash _) h = some rec
    rw [alookup_ainsert_ne _ _ hne]
    exact hrec
  · intro h rec tm hrec hsucc hpay
    rcases alookup_ainsert_eq_some hrec with ⟨heq, hrec2⟩ | ⟨hne, hold⟩
    · rw [hrec2] at hsucc
      cases hsucc
    · exact hinv.ref_ok h rec tm hold hsucc hpay

/-- A successful operation that creates no escrow and references none
(create, issue, transfer) keeps the invariants, provided its write-set
only inserts wallets. -/
theorem inv_insert_ok_no_escrow (s s' : LedgerState) (hinv : Inv s)
    (hash : Hash) (hfresh : alookup s.txRecords hash = none)
    (author : PublicKey) (tx : WalletTransactions)
    (hnotm : ∀ tm, tx ≠ WalletTransactions.transferMultisig tm)
    (hkey : ∀ pk w', s'.wallet pk = some w' → w'.pub_key = pk)
    (hwal : ∀ pk, (s.wallet pk).isSome → (s'.wallet pk).isSome)
    (htrans : s'.transfers = s.transfers)
    (hrecs : s'.txRecords = s.txRecords) :
    Inv { s' with
      txRecords := ainsert s'.txRecords hash
          { author := author, payload := tx, success := true } } := by
  constructor
  · exact hkey
  · intro h t ht
    have ht' : s.multisig_transfer h = some t := by
      show alookup s.transfers h = some t
      rw [← htrans]
      exact ht
    obtain ⟨rec, tm, hrec, hsucc, hpay, hsub⟩ := hinv.escrow_approvers h t ht'
    have hne : h ≠ hash := by
      intro he
      rw [he, hfresh] at hrec
      cases hrec
    refine ⟨rec, tm, ?_, hsucc, hpay, hsub⟩
    show alookup (ainsert s'.txRecords hash _) h = some rec
    rw [hrecs, alookup_ainsert_ne _ _ hne]
    exact hrec
  · intro h rec tm hrec hsucc hpay
    rw [hrecs] at hrec
    rcases alookup_ainsert_eq_some hrec with ⟨heq, hrec2⟩ | ⟨hne, hold⟩
    · rw [hrec2] at hpay
      exact absurd hpay (hnotm tm)
    · obtain ⟨h1, h2, h3⟩ := hinv.ref_ok h rec tm hold hsucc hpay
      refine ⟨hwal _ h1, hwal _ h2, ?_⟩
      show (alookup s'.transfers h).isSome
      rw [htrans]
      exact h3

/-- A successful `TransferMultisig` records a fresh empty escrow under its
own hash together with its (successful) log record, keeping the
invariants. -/
theorem inv_insert_ok_new_escrow (s s' : LedgerState) (hinv : Inv s)
    (hash : Hash) (hfresh : alookup s.txRecords hash = none)
    (author : PublicKey) (tm : TransferMultisig)
    (hkey : ∀ pk w', s'.wallet pk = some w' → w'.pub_key = pk)
    (hwal : ∀ pk, (s.wallet pk).isSome → (s'.wallet pk).isSome)
    (hwto : (s'.wallet tm.to_).isSome)
    (hwau : (s'.wallet author).isSome)
    (htrans : s'.transfers = ainsert s.transfers hash MultisignatureTransfer.new)
    (hrecs : s'.txRecords = s.txRecords) :
    Inv { s' with
      txRecords := ainsert s'.txRecords hash
          { author := author, payload := WalletTransactions.transferMultisig tm,
            success := true } } := by
  constructor
  · exact hkey
  · intro h t ht
    have ht' : alookup (ainsert s.transfers hash MultisignatureTransfer.new) h =
        some t := by
      rw [← htrans]
      exact ht
    rcases alookup_ainsert_eq_some ht' with ⟨heq, ht2⟩ | ⟨hne, hold⟩
    · subst heq
      refine ⟨{ author := author,
                payload := WalletTransactions.transferMultisig tm,
                success := true }, tm, ?_, rfl, rfl, ?_⟩
      · show alookup (ainsert s'.txRecords h _) h = some _
        rw [alookup_ainsert_self]
      · rw [ht2]
        intro x hx
        cases hx
    · obtain ⟨rec, tm', hrec, hsucc, hpay, hsub⟩ :=
        hinv.escrow_approvers h t hold
      have hneh : h ≠ hash := by
        intro he
        rw [he, hfresh] at hrec
        cases hrec
      refine ⟨rec, tm', ?_, hsucc, hpay, hsub⟩
      show alookup (ainsert s'.txRecords hash _) h = some rec
      rw [hrecs, alookup_ainsert_ne _ _ hneh]
      exact hrec
  · intro h rec tm' hrec hsucc hpay
    rw [hrecs] at hrec
    rcases alookup_ainsert_eq_some hrec with ⟨heq, hrec2⟩ | ⟨hne, hold⟩
    · subst heq
      rw [hrec2] at hpay
      have htm : tm = tm' := by
        injection hpay with hpay'
      refine ⟨?_, ?_, ?_⟩
      · rw [← htm]
        exact hwto
      · rw [hrec2]
        exact hwau
      · show (alookup s'.transfers h).isSome
        rw [htrans, alookup_ainsert_self]
        rfl
    · obtain ⟨h1, h2, h3⟩ := hinv.ref_ok h rec tm' hold hsucc hpay
      refine ⟨hwal _ h1, hwal _ h2, ?_⟩
      show (alookup s'.transfers h).isSome
      rw [htrans]
      exact alookup_ainsert_isSome _ _ _ _ h3

/-- A successful approve/reject rewrites one existing escrow whose new
`approved_by` is still covered by the referred transfer's approvers,
keeping the invariants. -/
theorem inv_insert_ok_escrow_update (s s' : LedgerState) (hinv : Inv s)
    (hash eh : Hash) (hfresh : alookup s.txRecords hash = none)
    (author : PublicKey) (tx : WalletTransactions)
    (hnotm : ∀ tm, tx ≠ WalletTransactions.transferMultisig tm)
    (t' : MultisignatureTransfer)
    (hkey : ∀ pk w', s'.wallet pk = some w' → w'.pub_key = pk)
    (hwal : ∀ pk, (s.wallet pk).isSome → (s'.wallet pk).isSome)
    (htrans : s'.transfers = ainsert s.transfers eh t')
    (hrecs : s'.txRecords = s.txRecords)
    (hsub : ∃ rec tm, alookup s.txRecords eh = some rec ∧
      rec.success = true ∧
      rec.payload = WalletTransactions.transferMultisig tm ∧
      ∀ x ∈ t'.approved_by, x ∈ tm.approvers) :
    Inv { s' with
      txRecords := ainsert s'.txRecords hash
          { author := author, payload := tx, success := true } } := by
  obtain ⟨rec0, tm0, hrec0, hsucc0, hpay0, hsub0⟩ := hsub
  have hneeh : eh ≠ hash := by
    intro he
    rw [he, hfresh] at hrec0
    cases hrec0
  constructor
  · exact hkey
  · intro h t ht
    have ht' : alookup (ainsert s.transfers eh t') h = some t := by
      rw [← htrans]
      exact ht
    rcases alookup_ainsert_eq_some ht' with ⟨heq, ht2⟩ | ⟨hne, hold⟩
    · subst heq
      refine ⟨rec0, tm0, ?_, hsucc0, hpay0, ?_⟩
      · show alookup (ainsert s'.txRecords hash _) h = some rec0
        rw [hrecs, alookup_ainsert_ne _ _ hneeh]
        exact hrec0
      · rw [ht2]
        exact hsub0
    · obtain ⟨rec, tm', hrec, hsucc, hpay, hsubo⟩ :=
        hinv.escrow_approvers h t hold
      have hneh : h ≠ hash := by
        intro he
        rw [he, hfresh] at hrec
        cases hrec
      refine ⟨rec, tm', ?_, hsucc, hpay, hsubo⟩
      show alookup (ainsert s'.txRecords hash _) h = some rec
      rw [hrecs, alookup_ainsert_ne _ _ hneh]
      exact hrec
  · intro h rec tm' hrec hsucc hpay
    rw [hrecs] at hrec
    rcases alookup_ainsert_eq_some hrec with ⟨heq, hrec2⟩ | ⟨hne, hold⟩
    · rw [hrec2] at hpay
      exact absurd hpay (hnotm tm')
    · obtain ⟨h1, h2, h3⟩ := hinv.ref_ok h rec tm' hold hsucc hpay
      refine ⟨hwal _ h1, hwal _ h2, ?_⟩
      show (alookup s'.transfers h).isSome
      rw [htrans]
      exact alookup_ainsert_isSome _ _ _ _ h3

theorem inv_ok_createWallet {s s' : LedgerState} {c : CreateWallet}
    {author : PublicKey} {hash : Hash} (hinv : Inv s)
    (hfresh : alookup s.txRecords hash = none)
    (hok : c.execute s author hash = Except.ok s') :
    Inv { s' with
      txRecords := ainsert s'.txRecords hash
          { author := author, payload := WalletTransactions.createWallet c,
            success := true } } := by
  unfold CreateWallet.execute at hok
  split at hok
  · injection hok with hok
    subst hok
    exact inv_insert_ok_no_escrow s _ hinv hash hfresh author _
      (fun tm ht => WalletTransactions.noConfusion ht)
      (wallet_key_create_wallet hinv.wallet_key _ _ _)
      (fun pk hp => wallet_isSome_create_wallet _ _ _ _ _ hp)
      rfl rfl
  · cases hok

theorem inv_ok_issue {s s' : LedgerState} {i : Issue}
    {author : PublicKey} {hash : Hash} (hinv : Inv s)
    (hfresh : alookup s.txRecords hash = none)
    (hok : i.execute s author hash = Except.ok s') :
    Inv { s' with
      txRecords := ainsert s'.txRecords hash
          { author := author, payload := WalletTransactions.issue i,
            success := true } } := by
  unfold Issue.execute at hok
  split at hok
  · injection hok with hok
    subst hok
    exact inv_insert_ok_no_escrow s _ hinv hash hfresh author _
      (fun tm ht => WalletTransactions.noConfusion ht)
      (wallet_key_update_wallet hinv.wallet_key _ _)
      (fun pk hp => wallet_isSome_update_wallet _ _ _ _ hp)
      rfl rfl
  · cases hok

theorem inv_ok_transfer {s s' : LedgerState} {t : Transfer}
    {author : PublicKey} {hash : Hash} (hinv : Inv s)
    (hfresh : alookup s.txRecords hash = none)
    (hok : t.execute s author hash = Except.ok s') :
    Inv { s' with
      txRecords := ainsert s'.txRecords hash
          { author := author, payload := WalletTransactions.transfer t,
            success := true } } := by
  unfold Transfer.execute at hok
  split at hok
  · cases hok
  · split at hok
    · cases hok
    · split at hok
      · cases hok
      · split at hok
        · cases hok
        · injection hok with hok
          subst hok
          exact inv_insert_ok_no_escrow s _ hinv hash hfresh author _
            (fun tm ht => WalletTransactions.noConfusion ht)
            (wallet_key_update_wallet
              (wallet_key_update_wallet hinv.wallet_key _ _) _ _)
            (fun pk hp => wallet_isSome_update_wallet _ _ _ _
              (wallet_isSome_update_wallet _ _ _ _ hp))
            rfl rfl

theorem inv_ok_transferMultisig {s s' : LedgerState} {t : TransferMultisig}
    {author : PublicKey} {hash : Hash} (hinv : Inv s)
    (hfresh : alookup s.txRecords hash = none)
    (hok : t.execute s author hash = Except.ok s') :
    Inv { s' with
      txRecords := ainsert s'.txRecords hash
          { author := author, payload := WalletTransactions.transferMultisig t,
            success := true } } := by
  unfold TransferMultisig.execute at hok
  dsimp only at hok
  split at hok
  · cases hok
  · split at hok
    · cases hok
    · rename_i sender hsender
      split at hok
      · cases hok
      · rename_i receiver hreceiver
        split at hok
        · cases hok
        · split at hok
          · cases hok
          · split at hok
            · cases hok
            · injection hok with hok
              subst hok
              refine inv_insert_ok_new_escrow s _ hinv hash hfresh author t
                (wallet_key_update_wallet hinv.wallet_key _ _)
                (fun pk hp => wallet_isSome_update_wallet _ _ _ _ hp)
                ?_ ?_ rfl rfl
              · exact wallet_isSome_update_wallet _ _ _ _
                  (by rw [hreceiver]; rfl)
              · exact wallet_isSome_update_wallet _ _ _ _
                  (by rw [hsender]; rfl)

theorem inv_ok_approve {s s' : LedgerState} {a : ApproveTransferMultisig}
    {author : PublicKey} {hash : Hash} (hinv : Inv s)
    (hfresh : alookup s.txRecords hash = none)
    (hok : a.execute s author hash = Except.ok s') :
    Inv { s' with
      txRecords := ainsert s'.txRecords hash
          { author := author,
            payload := WalletTransactions.approveTransferMultisig a,
            success := true } } := by
  unfold ApproveTransferMultisig.execute at hok
  dsimp only at hok
  split at hok
  · cases hok
  rename_i rec hrec
  split at hok
  · cases hok
  rename_i hsuccne
  have hsucc : rec.success = true := by
    cases hb : rec.success with
    | false => exact absurd hb hsuccne
    | true => rfl
  split at hok
  case h_2 => cases hok
  rename_i otm hpay
  split at hok
  · cases hok
  rename_i w hw
  split at hok
  · cases hok
  rename_i tq htq
  split at hok
  · cases hok
  rename_i hnr
  split at hok
  · cases hok
  rename_i app happ
  injection hok with hok
  subst hok
  unfold MultisignatureTransfer.approve at happ
  dsimp only at happ
  split at happ
  · rename_i hcont
    injection happ with happ
    have hab : app.approved_by = tq.approved_by ++ [author] := by
      rw [← happ]
    have hsubgoal : ∀ x ∈ app.approved_by, x ∈ otm.approvers := by
      intro x hx
      rw [hab] at hx
      rcases List.mem_append.mp hx with hx | hx
      · obtain ⟨rec1, tm1, hrec1, _, hpay1, hsub1⟩ :=
          hinv.escrow_approvers a.tx_hash tq htq
        have hr : rec1 = rec := Option.some_inj.mp (hrec1.symm.trans hrec)
        rw [hr] at hpay1
        have htm : tm1 = otm := by
          have hh := hpay1.symm.trans hpay
          injection hh
        rw [htm] at hsub1
        exact hsub1 x hx
      · have hxa : x = author := by simpa using hx
        subst hxa
        simpa using hcont
    by_cases hdone : app.is_done = true
    · rw [if_pos hdone]
      exact inv_insert_ok_escrow_update s _ hinv hash a.tx_hash hfresh author _
        (fun tm ht => WalletTransactions.noConfusion ht) app
        (wallet_key_update_wallet hinv.wallet_key _ _)
        (fun pk hp => wallet_isSome_update_wallet _ _ _ _ hp)
        rfl rfl ⟨rec, otm, hrec, hsucc, hpay, hsubgoal⟩
    · rw [if_neg hdone]
      exact inv_insert_ok_escrow_update s _ hinv hash a.tx_hash hfresh author _
        (fun tm ht => WalletTransactions.noConfusion ht) app
        hinv.wallet_key (fun pk hp => hp)
        rfl rfl ⟨rec, otm, hrec, hsucc, hpay, hsubgoal⟩
  · cases happ

theorem inv_ok_reject {s s' : LedgerState} {r : RejectTransferMultisig}
    {author : PublicKey} {hash : Hash} (hinv : Inv s)
    (hfresh : alookup s.txRecords hash = none)
    (hok : r.execute s author hash = Except.ok s') :
    Inv { s' with
      txRecords := ainsert s'.txRecords hash
          { author := author,
            payload := WalletTransactions.rejectTransferMultisig r,
            success := true } } := by
  unfold RejectTransferMultisig.execute at hok
  dsimp only at hok
  split at hok
  · cases hok
  rename_i rec hrec
  split at hok
  · cases hok
  rename_i hsuccne
  have hsucc : rec.success = true := by
    cases hb : rec.success with
    | false => exact absurd hb hsuccne
    | true => rfl
  split at hok
  case h_2 => cases hok
  rename_i otm hpay
  split at hok
  · cases hok
  rename_i sender hsender
  split at hok
  · cases hok
  rename_i tq htq
  split at hok
  · cases hok
  rename_i rej hrej
  injection hok with hok
  subst hok
  unfold MultisignatureTransfer.reject at hrej
  split at hrej
  · rename_i hcont
    injection hrej with hrej
    have hab : rej.approved_by = tq.approved_by := by
      rw [← hrej]
    have hsubgoal : ∀ x ∈ rej.approved_by, x ∈ otm.approvers := by
      intro x hx
      rw [hab] at hx
      obtain ⟨rec1, tm1, hrec1, _, hpay1, hsub1⟩ :=
        hinv.escrow_approvers r.tx_hash tq htq
      have hr : rec1 = rec := Option.some_inj.mp (hrec1.symm.trans hrec)
      rw [hr] at hpay1
      have htm : tm1 = otm := by
        have hh := hpay1.symm.trans hpay
        injection hh
      rw [htm] at hsub1
      exact hsub1 x hx
    exact inv_insert_ok_escrow_update s _ hinv hash r.tx_hash hfresh author _
      (fun tm ht => WalletTransactions.noConfusion ht) rej
      (wallet_key_update_wallet hinv.wallet_key _ _)
      (fun pk hp => wallet_isSome_update_wallet _ _ _ _ hp)
      rfl rfl ⟨rec, otm, hrec, hsucc, hpay, hsubgoal⟩
  · cases hrej

/-- One sequencer step preserves all ledger invariants. -/
theorem inv_applyTx (s : LedgerState) (author : PublicKey) (hash : Hash)
    (tx : WalletTransactions) (hinv : Inv s) :
    Inv (applyTx s author hash tx) := by
  unfold applyTx
  by_cases hdup : (alookup s.txRecords hash).isSome = true
  · rw [if_pos hdup]
    exact hinv
  · rw [if_neg hdup]
    have hfresh : alookup s.txRecords hash = none := by
      cases hh : alookup s.txRecords hash
      · rfl
      · rw [hh] at hdup
        simp at hdup
    cases hexec : tx.execute s author hash with
    | error e =>
      exact inv_insert_fail s hinv hash hfresh author tx
    | ok s1 =>
      cases tx with
      | transfer t =>
        exact inv_ok_transfer hinv hfresh hexec
      | issue t =>
        exact inv_ok_issue hinv hfresh hexec
      | createWallet t =>
        exact inv_ok_createWallet hinv hfresh hexec
      | transferMultisig t =>
        exact inv_ok_transferMultisig hinv hfresh hexec
      | approveTransferMultisig t =>
        exact inv_ok_approve hinv hfresh hexec
      | rejectTransferMultisig t =>
        exact inv_ok_reject hinv hfresh hexec

/-- The empty ledger satisfies the invariants. -/
theorem inv_empty : Inv LedgerState.empty := by
  constructor
  · intro pk w h
    cases h
  · intro h t ht
    cases ht
  · intro h rec tm hrec
    cases hrec

/-- Every reachable ledger state satisfies the invariants. -/
theorem reachable_inv (s : LedgerState) (h : Reachable s) : Inv s := by
  induction h with
  | init => exact inv_empty
  | step author hash tx _ ih => exact inv_applyTx _ author hash tx ih

/-- C8 (amended): in every reachable state, each escrow's `approved_by`
is a subset of the referred transfer's approvers list.  The original
claim's second half — that no identity appears twice in `approved_by` —
is false: see the counterexample theorem. -/
theorem approved_by_subset_of_approvers (s : LedgerState)
    (hs : Reachable s) (h : Hash) (t : MultisignatureTransfer)
    (ht : s.multisig_transfer h = some t) :
    ∃ rec tm, alookup s.txRecords h = some rec ∧
      rec.payload = WalletTransactions.transferMultisig tm ∧
      ∀ x ∈ t.approved_by, x ∈ tm.approvers := by
  obtain ⟨rec, tm, h1, _, h3, h4⟩ :=
    (reachable_inv s hs).escrow_approvers h t ht
  exact ⟨rec, tm, h1, h3, h4⟩

/-- C8 counterexample: Carol approves the pending two-approver escrow
twice; both approvals are recorded successful and `approved_by` ends as
`[3, 3]` — the same identity twice, contradicting the claim that a second
approval adds no second occurrence. -/
theorem approved_by_duplicate_entry :
    (alookup sCarolTwice.txRecords 14).map TxRecord.success = some true ∧
    (alookup sCarolTwice.txRecords 15).map TxRecord.success = some true ∧
    (sCarolTwice.multisig_transfer 13).map
      MultisignatureTransfer.approved_by = some [3, 3] := by
  decide

/-- Witness for C8 at a concrete input: after Carol's single approval the
escrow's approved-by list `[3]` is covered by the approvers of the
recorded transfer. -/
theorem approved_by_subset_of_approvers_witness :
    ∃ rec tm, alookup sCarol.txRecords 13 = some rec ∧
      rec.payload = WalletTransactions.transferMultisig tm ∧
      ∀ x ∈ ({ approved_by := [3], state := State.InProcess } :
        MultisignatureTransfer).approved_by, x ∈ tm.approvers :=
  approved_by_subset_of_approvers sCarol
    (Reachable.step 3 14
      (WalletTransactions.approveTransferMultisig { tx_hash := 13 })
      (Reachable.step 1 13
        (WalletTransactions.transferMultisig
          { to_ := 2, approvers := [3, 4], amount := 10, seed := 0 })
        (Reachable.step 2 12 (WalletTransactions.createWallet { name := "bob" })
          (Reachable.step 1 11
            (WalletTransactions.createWallet { name := "alice" })
            Reachable.init))))
    13 { approved_by := [3], state := State.InProcess } (by decide)

/-- C9: in every reachable state, every failing operation fails with one
reason from the closed set of the spec's operations table; in particular
approve can fail only with TxNotFound, ReferredTxFailed,
ReferredTxWrongKind, ApproverNotEligible or EscrowAlreadyRejected, and
reject only with the first four — the executors' residual
ReceiverNotFound / SenderNotFound paths are unreachable because a
successful referred `TransferMultisig` implies its receiver and initiator
wallets exist. -/
theorem errors_within_closed_set (s : LedgerState) (hs : Reachable s)
    (author : PublicKey) (hash : Hash) (tx : WalletTransactions) (e : Error)
    (herr : tx.execute s author hash = Except.error e) :
    e ∈ allowedErrors tx := by
  have hinv := reachable_inv s hs
  cases tx with
  | transfer t =>
    unfold WalletTransactions.execute Transfer.execute at herr
    dsimp only at herr
    split at herr
    · injection herr with h
      subst h
      simp [allowedErrors]
    split at herr
    · injection herr with h
      subst h
      simp [allowedErrors]
    split at herr
    · injection herr with h
      subst h
      simp [allowedErrors]
    split at herr
    · injection herr with h
      subst h
      simp [allowedErrors]
    · cases herr
  | issue i =>
    unfold WalletTransactions.execute Issue.execute at herr
    dsimp only at herr
    split at herr
    · cases herr
    · injection herr with h
      subst h
      simp [allowedErrors]
  | createWallet c =>
    unfold WalletTransactions.execute CreateWallet.execute at herr
    dsimp only at herr
    split at herr
    · cases herr
    · injection herr with h
      subst h
      simp [allowedErrors]
  | transferMultisig t =>
    unfold WalletTransactions.execute TransferMultisig.execute at herr
    dsimp only at herr
    split at herr
    · injection herr with h
      subst h
      simp [allowedErrors]
    split at herr
    · injection herr with h
      subst h
      simp [allowedErrors]
    split at herr
    · injection herr with h
      subst h
      simp [allowedErrors]
    split at herr
    · injection herr with h
      subst h
      simp [allowedErrors]
    split at herr
    · injection herr with h
      subst h
      simp [allowedErrors]
    split at herr
    · injection herr with h
      subst h
      simp [allowedErrors]
    · cases herr
  | approveTransferMultisig a =>
    unfold WalletTransactions.execute ApproveTransferMultisig.execute at herr
    dsimp only at herr
    split at herr
    · injection herr with h
      subst h
      simp [allowedErrors]
    rename_i rec hrec
    split at herr
    · injection herr with h
      subst h
      simp [allowedErrors]
    rename_i hsuccne
    have hsucc : rec.success = true := by
      cases hb : rec.success with
      | false => exact absurd hb hsuccne
      | true => rfl
    split at herr
    case h_2 =>
      injection herr with h
      subst h
      simp [allowedErrors]
    rename_i otm hpay
    split at herr
    · rename_i hwnone
      obtain ⟨h1, _, _⟩ := hinv.ref_ok a.tx_hash rec otm hrec hsucc hpay
      rw [hwnone] at h1
      cases h1
    rename_i w hw
    split at herr
    · injection herr with h
      subst h
      simp [allowedErrors]
    rename_i tq htq
    split at herr
    · injection herr with h
      subst h
      simp [allowedErrors]
    rename_i hnr
    split at herr
    · injection herr with h
      subst h
      simp [allowedErrors]
    · cases herr
  | rejectTransferMultisig r =>
    unfold WalletTransactions.execute RejectTransferMultisig.execute at herr
    dsimp only at herr
    split at herr
    · injection herr with h
      subst h
      simp [allowedErrors]
    rename_i rec hrec
    split at herr
    · injection herr with h
      subst h
      simp [allowedErrors]
    rename_i hsuccne
    have hsucc : rec.success = true := by
      cases hb : rec.success with
      | false => exact absurd hb hsuccne
      | true => rfl
    split at herr
    case h_2 =>
      injection herr with h
      subst h
      simp [allowedErrors]
    rename_i otm hpay
    split at herr
    · rename_i hwnone
      obtain ⟨_, h2, _⟩ := hinv.ref_ok r.tx_hash rec otm hrec hsucc hpay
      rw [hwnone] at h2
      cases h2
    rename_i sender hsender
    split at herr
    · injection herr with h
      subst h
      simp [allowedErrors]
    rename_i tq htq
    split at herr
    · injection herr with h
      subst h
      simp [allowedErrors]
    · cases herr

/-- Witness for C9 at a concrete input: approving an unknown escrow on
the (reachable) empty ledger fails with TransactionDoesNotExist, which is
in the claimed closed set. -/
theorem errors_within_closed_set_witness :
    Error.TransactionDoesNotExist ∈ allowedErrors
      (WalletTransactions.approveTransferMultisig { tx_hash := 0 }) :=
  errors_within_closed_set LedgerState.empty Reachable.init 1 5
    (WalletTransactions.approveTransferMultisig { tx_hash := 0 })
    Error.TransactionDoesNotExist (by rfl)

end Exonum
